import Mathlib

/-!
Verification development for the extension-exporter repository.

The definitions below are shallow embeddings of the TypeScript source:

* `Json`, `jsonLookup`, the `valid*` checkers and `parseManifestVariant` /
  `validExtensionInfo` / `parseExtensionInfo` embed `src/schemas/index.ts`
  (the zod `ExtensionInfoSchema`: `z.object` requires the listed keys,
  tolerates unknown keys, `z.string()` accepts any string, `z.literal(2)` /
  `z.literal(3)` discriminate the two manifest variants, and
  `try { Schema.parse(info); return info } catch { return null }` from
  `src/services/extension-exporter.ts` lines 159-166 is `parseExtensionInfo`).
  JSON numbers are modelled as integers, which is enough for every literal
  the schema mentions.
* `sanitizeChar`, `replaceUnsafe`, `jsTrim` and `getExtensionName` embed
  `ExtensionExporter.getExtensionName` from
  `src/services/extension-exporter.ts` lines 71-84
  (`name.replace(/[<>:"/\\|?*]/g, "_").trim()` with the extension id as
  fallback for an empty result).  `jsTrim` models JavaScript
  `String.prototype.trim` on the common whitespace code points.
* `jsParseInt`, `splitSegs`, `verKey`, `cmpKeys`, `versionCompare` and
  `selectLatest` embed the Chromium version-directory comparator of
  `getExtensionsFromProfile` (`src/services/extension-exporter.ts` lines
  125-133): `v.split(".").map((n) => parseInt(n) || 0)` compared
  segment-wise by `(bNum[i] || 0) - (aNum[i] || 0)`, sorted descending,
  first element taken, with the falsy guard `if (!latestVersion)`.
  `jsParseInt` models JavaScript `parseInt` with an undefined radix:
  leading whitespace, optional sign, optional `0x` prefix, longest digit
  prefix, `NaN` when no digit is consumed (`NaN || 0` and `0 || 0` both
  yield `0`, which is `segVal`).
* `specSegVal` / `specVersionCompare` are NOT translated from the source:
  they follow the spec sentence "compare corresponding numeric segments
  left-to-right treating a missing or non-numeric segment as 0" literally
  (a segment is numeric only when it consists entirely of digits), and are
  used solely to compare the spec wording with the implementation.
* `FsM`, `copyDirFs`, `setFileFs`, `rmTreeFs` and `exportExtension` embed
  `copyDirectory` from `src/utils/fs.ts` and
  `ExtensionExporter.exportExtension` from
  `src/services/extension-exporter.ts` lines 192-215.  A filesystem is a
  map from paths (segment lists) to file contents; directories are
  implicit.  The archiver library is external to the repository, so the
  zip encoding is an explicit function parameter and `exportExtension`
  additionally returns the entry map handed to the archiver.
* `runBatchExports` embeds the export loop of `ExtensionExporter.run`
  (`src/services/extension-exporter.ts` lines 285-287: a sequential
  `for ... await this.exportExtension(...)` with no per-item catch, while
  `exportExtension` rethrows at line 213).  `runBatchExportsLegacy` embeds
  the corresponding loop of the legacy monolithic `index.ts` (lines
  687-698), which wraps each item in its own try/catch.
* `Platform`, `BrowserConfig`, `BROWSER_CONFIGS`, `globMatch` and
  `getBrowserProfilesWith` embed `src/config/browsers.ts` and
  `ExtensionExporter.getBrowserProfiles`
  (`src/services/extension-exporter.ts` lines 23-51).  `path.join` is
  modelled with a `/` separator and glob patterns support the `*`
  wildcard, the only metacharacter the configured patterns use.
-/

/-- JSON values; numbers are modelled as integers (sufficient for the
`manifest_version` literals 2, 3, 4 the claims are about). -/
inductive Json where
  | null : Json
  | bool : Bool → Json
  | num : Int → Json
  | str : String → Json
  | arr : List Json → Json
  | obj : List (String × Json) → Json

/-- First binding of `name` in a JS-object field list. -/
def lookupF (fields : List (String × Json)) (name : String) : Option Json :=
  (fields.find? (fun kv => kv.1 = name)).map (fun kv => kv.2)

/-- Property access `j[name]` on a JSON value (undefined on non-objects). -/
def jsonLookup (j : Json) (name : String) : Option Json :=
  match j with
  | Json.obj fields => lookupF fields name
  | _ => none

/-- zod `z.string()`. -/
def zString : Json → Bool
  | Json.str _ => true
  | _ => false

/-- zod `z.boolean()`. -/
def zBool : Json → Bool
  | Json.bool _ => true
  | _ => false

/-- zod `z.array(z.string())`. -/
def validStrArr : Json → Bool
  | Json.arr xs => xs.all zString
  | _ => false

/-- zod `z.record(z.string())`. -/
def validRecordString : Json → Bool
  | Json.obj fields => fields.all (fun kv => zString kv.2)
  | _ => false

/-- A required key of a zod object: missing key fails. -/
def reqF (fields : List (String × Json)) (name : String) (p : Json → Bool) : Bool :=
  match lookupF fields name with
  | some v => p v
  | none => false

/-- An `.optional()` key of a zod object: missing key succeeds. -/
def optF (fields : List (String × Json)) (name : String) (p : Json → Bool) : Bool :=
  match lookupF fields name with
  | some v => p v
  | none => true

/-- zod `z.literal(k)` for the `manifest_version` discriminant. -/
def mvIs (k : Int) : Json → Bool
  | Json.num n => n = k
  | _ => false

/-- The content-script object schema shared by both manifest variants. -/
def validContentScript : Json → Bool
  | Json.obj fields =>
      optF fields "matches" validStrArr &&
      optF fields "exclude_matches" validStrArr &&
      optF fields "css" validStrArr &&
      optF fields "js" validStrArr &&
      optF fields "run_at" zString
  | _ => false

/-- The V2 `background` object schema. -/
def validBackgroundV2 : Json → Bool
  | Json.obj fields =>
      optF fields "scripts" validStrArr &&
      optF fields "page" zString &&
      optF fields "persistent" zBool
  | _ => false

/-- The V3 `background` object schema. -/
def validBackgroundV3 : Json → Bool
  | Json.obj fields =>
      optF fields "service_worker" zString &&
      optF fields "scripts" validStrArr
  | _ => false

/-- The shared `browser_action` / `page_action` / `action` object schema. -/
def validActionObj : Json → Bool
  | Json.obj fields =>
      optF fields "default_title" zString &&
      optF fields "default_icon" (fun v => zString v || validRecordString v) &&
      optF fields "default_popup" zString
  | _ => false

/-- The V3 `web_accessible_resources` entry schema. -/
def validWarEntryV3 : Json → Bool
  | Json.obj fields =>
      reqF fields "resources" validStrArr &&
      reqF fields "matches" validStrArr
  | _ => false

/-- The `manifest_version: 2` branch of the zod union. -/
def validManifestV2 : Json → Bool
  | Json.obj fields =>
      reqF fields "manifest_version" (mvIs 2) &&
      reqF fields "name" zString &&
      reqF fields "version" zString &&
      optF fields "description" zString &&
      optF fields "permissions" validStrArr &&
      optF fields "content_scripts" (fun v =>
        match v with
        | Json.arr xs => xs.all validContentScript
        | _ => false) &&
      optF fields "background" validBackgroundV2 &&
      optF fields "browser_action" validActionObj &&
      optF fields "page_action" validActionObj &&
      optF fields "options_page" zString &&
      optF fields "web_accessible_resources" validStrArr
  | _ => false

/-- The `manifest_version: 3` branch of the zod union. -/
def validManifestV3 : Json → Bool
  | Json.obj fields =>
      reqF fields "manifest_version" (mvIs 3) &&
      reqF fields "name" zString &&
      reqF fields "version" zString &&
      optF fields "description" zString &&
      optF fields "permissions" validStrArr &&
      optF fields "host_permissions" validStrArr &&
      optF fields "content_scripts" (fun v =>
        match v with
        | Json.arr xs => xs.all validContentScript
        | _ => false) &&
      optF fields "background" validBackgroundV3 &&
      optF fields "action" validActionObj &&
      optF fields "options_page" zString &&
      optF fields "web_accessible_resources" (fun v =>
        match v with
        | Json.arr xs => xs.all validWarEntryV3
        | _ => false)
  | _ => false

/-- Tag recording which branch of the manifest union accepted a value. -/
inductive MVariant where
  | v2 : MVariant
  | v3 : MVariant
deriving DecidableEq

/-- zod `z.union([V2, V3])`: branches tried in order, tag of the first
branch that accepts. -/
def parseManifestVariant (j : Json) : Option MVariant :=
  if validManifestV2 j then some MVariant.v2
  else if validManifestV3 j then some MVariant.v3
  else none

/-- The whole `ExtensionInfoSchema` object check. -/
def validExtensionInfo : Json → Bool
  | Json.obj fields =>
      reqF fields "id" zString &&
      reqF fields "name" zString &&
      reqF fields "version" zString &&
      optF fields "description" zString &&
      reqF fields "manifest" (fun m => (parseManifestVariant m).isSome) &&
      reqF fields "folderPath" zString
  | _ => false

/-- Embeds `try { ExtensionInfoSchema.parse(extensionInfo); return
extensionInfo } catch { return null }`: the validated record itself is
returned on success (the zod parse result is discarded by the source). -/
def parseExtensionInfo (j : Json) : Option Json :=
  if validExtensionInfo j then some j else none

/-- JavaScript truthiness on JSON values (`undefined` is an absent key and
is handled at each use site). -/
def jsTruthy : Json → Bool
  | Json.null => false
  | Json.bool b => b
  | Json.num n => n ≠ 0
  | Json.str s => s ≠ ""
  | Json.arr _ => true
  | Json.obj _ => true

/-- Whitespace recognised by JavaScript `trim` (the common code points). -/
def isWsChar (c : Char) : Bool :=
  c = ' ' || c = '\t' || c = '\n' || c = '\r' ||
  c.val = 11 || c.val = 12 || c.val = 160 || c.val = 0xFEFF ||
  c.val = 0x2028 || c.val = 0x2029

/-- The characters replaced by `/[<>:"/\\|?*]/g`. -/
def isUnsafeChar (c : Char) : Bool :=
  c = '<' || c = '>' || c = ':' || c = '"' || c = '/' || c = '\\' ||
  c = '|' || c = '?' || c = '*'

/-- One step of `name.replace(/[<>:"/\\|?*]/g, "_")`. -/
def sanitizeChar (c : Char) : Char :=
  if isUnsafeChar c then '_' else c

/-- Embeds `name.replace(/[<>:"/\\|?*]/g, "_")`. -/
def replaceUnsafe (s : String) : String :=
  String.mk (s.data.map sanitizeChar)

/-- Drop leading and trailing JS whitespace from a character list. -/
def trimChars (l : List Char) : List Char :=
  ((l.dropWhile isWsChar).reverse.dropWhile isWsChar).reverse

/-- JavaScript `String.prototype.trim`. -/
def jsTrim (s : String) : String :=
  String.mk (trimChars s.data)

/-- Embeds `ExtensionExporter.getExtensionName` of the service
(`src/services/extension-exporter.ts` lines 71-84): sanitize, trim, and
fall back to the extension id when the result is empty.  The service
performs no locale-message resolution. -/
def getExtensionName (manifestName : String) (extId : String) : String :=
  let n := jsTrim (replaceUnsafe manifestName)
  if n = "" then extId else n

/-- Embeds the record construction of `getExtensionsFromProfile`
(`src/services/extension-exporter.ts` lines 145-157): the JS object
`{ id: item, name: extName, version: manifest.version || "1.0.0",
description: manifest.description, manifest, folderPath: extensionDir }`.
A non-string `manifest.name` makes `name.replace` throw inside the
per-item try, so the item yields no record (`none`). -/
def buildExtensionInfo (manifest : Json) (item : String) (extensionDir : String) :
    Option Json :=
  match jsonLookup manifest "name" with
  | some (Json.str n) =>
      let extName := getExtensionName n item
      let verField : Json :=
        match jsonLookup manifest "version" with
        | some v => if jsTruthy v then v else Json.str "1.0.0"
        | none => Json.str "1.0.0"
      let descFields : List (String × Json) :=
        match jsonLookup manifest "description" with
        | some d => [("description", d)]
        | none => []
      some (Json.obj
        ([("id", Json.str item), ("name", Json.str extName), ("version", verField)] ++
          descFields ++
          [("manifest", manifest), ("folderPath", Json.str extensionDir)]))
  | _ => none

/-- Digits of the given radix (10 or 16), as JavaScript `parseInt` accepts. -/
def isRadixDigit (radix : Nat) (c : Char) : Bool :=
  if radix = 16 then
    c.isDigit || ('a' ≤ c && c ≤ 'f') || ('A' ≤ c && c ≤ 'F')
  else
    c.isDigit

/-- Value of one such digit. -/
def radixDigitVal (c : Char) : Nat :=
  if c.isDigit then c.toNat - '0'.toNat
  else if 'a' ≤ c && c ≤ 'f' then c.toNat - 'a'.toNat + 10
  else if 'A' ≤ c && c ≤ 'F' then c.toNat - 'A'.toNat + 10
  else 0

/-- JavaScript `parseInt(s)` with an undefined radix: skip leading
whitespace, optional sign, optional `0x` / `0X` prefix selecting radix 16,
then the longest digit prefix; `none` models `NaN`. -/
def jsParseInt (s : String) : Option Int :=
  let cs := s.data.dropWhile isWsChar
  let signAndRest : Int × List Char :=
    match cs with
    | '-' :: rest => (-1, rest)
    | '+' :: rest => (1, rest)
    | _ => (1, cs)
  let radixAndRest : Nat × List Char :=
    match signAndRest.2 with
    | '0' :: 'x' :: rest => (16, rest)
    | '0' :: 'X' :: rest => (16, rest)
    | other => (10, other)
  let digits := radixAndRest.2.takeWhile (isRadixDigit radixAndRest.1)
  if digits.isEmpty then none
  else some (signAndRest.1 *
    Int.ofNat (digits.foldl (fun acc c => acc * radixAndRest.1 + radixDigitVal c) 0))

/-- Segment value of the comparator: `parseInt(n) || 0` (both `NaN` and a
parsed `0` collapse to `0`). -/
def segVal (s : String) : Int :=
  match jsParseInt s with
  | some v => v
  | none => 0

/-- JavaScript `s.split(".")` on a character list (an empty string yields
one empty segment, exactly like `"".split(".")`). -/
def splitSegs : List Char → List (List Char)
  | [] => [[]]
  | c :: rest =>
      if c = '.' then [] :: splitSegs rest
      else
        match splitSegs rest with
        | s :: ss => (c :: s) :: ss
        | [] => [[c]]

/-- Embeds `version.split(".").map((n) => parseInt(n) || 0)`. -/
def verKey (v : String) : List Int :=
  (splitSegs v.data).map (fun seg => segVal (String.mk seg))

/-- The comparator loop on an exhausted left operand: each missing segment
counts as 0 against the remaining right segments. -/
def cmpNil : List Int → Int
  | [] => 0
  | b :: bs => if b ≠ 0 then b else cmpNil bs

/-- The comparator loop of `getExtensionsFromProfile`: the first non-zero
`(bNum[i] || 0) - (aNum[i] || 0)`, or 0 when the keys agree up to padding.
A positive result means the second key is larger. -/
def cmpKeys : List Int → List Int → Int
  | [], bs => cmpNil bs
  | a :: as, [] => if a ≠ 0 then -a else cmpKeys as []
  | a :: as, b :: bs => if b - a ≠ 0 then b - a else cmpKeys as bs

/-- The sort comparator `(a, b) => { ... }` of the Chromium version
selection: negative exactly when `a` denotes the higher version, so the
sort is descending and index 0 holds a maximal version. -/
def versionCompare (a b : String) : Int :=
  cmpKeys (verKey a) (verKey b)

/-- The order in which the JS sort keeps its arguments: `a` may stay
before `b` when the comparator is non-positive. -/
def versionBefore (a b : String) : Prop :=
  versionCompare a b ≤ 0

instance : DecidableRel versionBefore :=
  fun a b => Int.decLe (versionCompare a b) 0

/-- Embeds `versionDirs.sort(comparator)[0]` followed by the falsy guard
`if (!latestVersion) return null` (an empty string at index 0 is falsy). -/
def selectLatest (dirs : List String) : Option String :=
  match List.insertionSort versionBefore dirs with
  | [] => none
  | v :: _ => if v = "" then none else some v

/-- Embeds lines 136-137 of the service: the manifest path used for a
Chromium-style extension is `manifest.json` inside the selected version
directory. -/
def chromiumManifestPath (itemPath : List String) (dirs : List String) :
    Option (List String) :=
  (selectLatest dirs).map (fun v => itemPath ++ [v, "manifest.json"])

/-- Segment value read from the SPEC sentence, not from the source: a
segment counts only when it is numeric, that is, made of digits alone;
any other (or missing) segment counts as 0. -/
def specSegVal (seg : List Char) : Int :=
  if seg ≠ [] && seg.all Char.isDigit then
    Int.ofNat (seg.foldl (fun acc c => acc * 10 + (c.toNat - '0'.toNat)) 0)
  else 0

/-- Comparator obtained by reading the spec sentence literally; used only
to compare the spec wording with `versionCompare`. -/
def specVersionCompare (a b : String) : Int :=
  cmpKeys ((splitSegs a.data).map specSegVal) ((splitSegs b.data).map specSegVal)

/-- File contents. -/
abbrev Bytes := List Nat

/-- A filesystem: a map from paths (segment lists) to file contents.
Directories are implicit; `none` means no file at that path. -/
abbrev FsM := List String → Option Bytes

/-- Remove `pre` from the front of `p`; `none` when `pre` is not a prefix
of `p`. -/
def stripPfx : List String → List String → Option (List String)
  | [], q => some q
  | _ :: _, [] => none
  | a :: as, b :: bs => if a = b then stripPfx as bs else none

/-- Embeds `copyDirectory(src, dest)` from `src/utils/fs.ts`: every file of
the `src` subtree is copied to the same relative path under `dest`;
existing `dest` files outside the copied set remain (`mkdir` is recursive
and nothing is cleared first). -/
def copyDirFs (fs : FsM) (src dest : List String) : FsM :=
  fun p =>
    match stripPfx dest p with
    | some q =>
        match fs (src ++ q) with
        | some c => some c
        | none => fs p
    | none => fs p

/-- Write one file. -/
def setFileFs (fs : FsM) (p : List String) (c : Bytes) : FsM :=
  fun q => if q = p then some c else fs q

/-- Embeds `fs.rm(dir, { recursive: true, force: true })`. -/
def rmTreeFs (fs : FsM) (dir : List String) : FsM :=
  fun q =>
    match stripPfx dir q with
    | some _ => none
    | none => fs q

/-- The subtree of `fs` rooted at `dir`, as a relative-path map. -/
def subtreeOf (fs : FsM) (dir : List String) : FsM :=
  fun q => fs (dir ++ q)

/-- The discovered-extension record handed to the exporter
(`ExtensionInfo` in `src/types.ts`); `folderPath` is a path in the
segment-list model. -/
structure ExtensionRecord where
  id : String
  name : String
  version : String
  description : Option String
  manifest : Json
  folderPath : List String

/-- Embeds `ExtensionExporter.exportExtension`
(`src/services/extension-exporter.ts` lines 192-215): make
`exports/<browser>`, copy the payload directory to the temp directory
`exports/<browser>/<id>`, hand the temp subtree to the archiver (the
external library is the `encode` parameter), write the archive at
`exports/<browser>/<name>-<version>.zip`, then remove the temp directory.
Returns the final filesystem and the entry map given to the archiver. -/
def exportExtension (encode : FsM → Bytes) (fs : FsM) (ext : ExtensionRecord)
    (sourceBrowser : String) : FsM × FsM :=
  let tempDir := ["exports", sourceBrowser, ext.id]
  let fs1 := copyDirFs fs ext.folderPath tempDir
  let payload := subtreeOf fs1 tempDir
  let zipPath := ["exports", sourceBrowser, ext.name ++ "-" ++ ext.version ++ ".zip"]
  let fs2 := setFileFs fs1 zipPath (encode payload)
  let fs3 := rmTreeFs fs2 tempDir
  (fs3, payload)

/-- Embeds the export loop of the service `run`
(`src/services/extension-exporter.ts` lines 285-287): items are awaited
sequentially, `exportExtension` rethrows on failure (line 213) and the
loop has no per-item catch, so the first error aborts the rest.  Returns
the successfully exported items in order and the aborting error, if any. -/
def runBatchExports {α : Type} (exportOne : α → Except String Unit) :
    List α → List α × Option String
  | [] => ([], none)
  | x :: xs =>
      match exportOne x with
      | Except.ok _ =>
          let rest := runBatchExports exportOne xs
          (x :: rest.1, rest.2)
      | Except.error e => ([], some e)

/-- Embeds the export loop of the legacy monolithic `index.ts` (lines
687-698): each item runs inside its own try/catch, failures are logged
per item and the remaining items still run.  Returns the exported items
and the collected errors. -/
def runBatchExportsLegacy {α : Type} (exportOne : α → Except String Unit) :
    List α → List α × List String
  | [] => ([], [])
  | x :: xs =>
      let rest := runBatchExportsLegacy exportOne xs
      match exportOne x with
      | Except.ok _ => (x :: rest.1, rest.2)
      | Except.error e => (rest.1, e :: rest.2)

/-- A per-item export outcome for the batch scenario of the spec: the
extension `extA` has an unreadable source directory, the others export
fine. -/
def unreadableExport (ext : String) : Except String Unit :=
  if ext = "extA" then Except.error "EACCES: unreadable source directory"
  else Except.ok ()

/-- The three platforms of the config table. -/
inductive Platform where
  | windows : Platform
  | mac : Platform
  | linux : Platform
deriving DecidableEq

/-- The platform string interpolated into the unsupported-platform error. -/
def platformName : Platform → String
  | Platform.windows => "windows"
  | Platform.mac => "mac"
  | Platform.linux => "linux"

/-- One entry of the per-browser config table (`BrowserConfig` in
`src/types.ts`). -/
structure BrowserConfig where
  name : String
  paths : Platform → Option String
  extensionPath : String
  profilePatterns : List String

/-- Models `path.join` with a `/` separator. -/
def pathJoin (a b : String) : String :=
  a ++ "/" ++ b

/-- Models `path.join(os.homedir(), ...segments)`. -/
def homePath (home : String) (segs : List String) : String :=
  segs.foldl pathJoin home

/-- Embeds the `BROWSER_CONFIGS` table of `src/config/browsers.ts`. -/
def BROWSER_CONFIGS (home : String) : String → Option BrowserConfig :=
  fun browser =>
    if browser = "chrome" then some {
      name := "Google Chrome"
      paths := fun pl =>
        match pl with
        | Platform.windows =>
            some (homePath home ["AppData", "Local", "Google", "Chrome", "User Data"])
        | Platform.mac =>
            some (homePath home ["Library", "Application Support", "Google", "Chrome"])
        | Platform.linux => some (homePath home [".config", "google-chrome"])
      extensionPath := "Extensions"
      profilePatterns := ["Default", "Profile *"] }
    else if browser = "edge" then some {
      name := "Microsoft Edge"
      paths := fun pl =>
        match pl with
        | Platform.windows =>
            some (homePath home ["AppData", "Local", "Microsoft", "Edge", "User Data"])
        | Platform.mac =>
            some (homePath home ["Library", "Application Support", "Microsoft Edge"])
        | Platform.linux => some (homePath home [".config", "microsoft-edge"])
      extensionPath := "Extensions"
      profilePatterns := ["Default", "Profile *"] }
    else if browser = "firefox" then some {
      name := "Mozilla Firefox"
      paths := fun pl =>
        match pl with
        | Platform.windows =>
            some (homePath home ["AppData", "Roaming", "Mozilla", "Firefox", "Profiles"])
        | Platform.mac =>
            some (homePath home ["Library", "Application Support", "Firefox", "Profiles"])
        | Platform.linux => some (homePath home [".mozilla", "firefox"])
      extensionPath := "extensions"
      profilePatterns := ["*.default*", "default-*"] }
    else if browser = "brave" then some {
      name := "Brave Browser"
      paths := fun pl =>
        match pl with
        | Platform.windows =>
            some (homePath home
              ["AppData", "Local", "BraveSoftware", "Brave-Browser", "User Data"])
        | Platform.mac =>
            some (homePath home
              ["Library", "Application Support", "BraveSoftware", "Brave-Browser"])
        | Platform.linux =>
            some (homePath home [".config", "BraveSoftware", "Brave-Browser"])
      extensionPath := "Extensions"
      profilePatterns := ["Default", "Profile *"] }
    else if browser = "opera" then some {
      name := "Opera"
      paths := fun pl =>
        match pl with
        | Platform.windows =>
            some (homePath home ["AppData", "Roaming", "Opera Software", "Opera Stable"])
        | Platform.mac =>
            some (homePath home
              ["Library", "Application Support", "com.operasoftware.Opera"])
        | Platform.linux => some (homePath home [".config", "opera"])
      extensionPath := "Extensions"
      profilePatterns := ["Default"] }
    else if browser = "vivaldi" then some {
      name := "Vivaldi"
      paths := fun pl =>
        match pl with
        | Platform.windows =>
            some (homePath home ["AppData", "Local", "Vivaldi", "User Data"])
        | Platform.mac =>
            some (homePath home ["Library", "Application Support", "Vivaldi"])
        | Platform.linux => some (homePath home [".config", "vivaldi"])
      extensionPath := "Extensions"
      profilePatterns := ["Default", "Profile *"] }
    else none

/-- Embeds the service `getCurrentPlatform`: any platform other than
`win32` and `darwin` maps to linux. -/
def getCurrentPlatform (processPlatform : String) : Platform :=
  if processPlatform = "win32" then Platform.windows
  else if processPlatform = "darwin" then Platform.mac
  else Platform.linux

/-- Glob matching restricted to the `*` wildcard, the only metacharacter
the configured profile patterns use: `*` matches any substring, all other
characters are literal. -/
def globMatch : List Char → List Char → Bool
  | [], ns => ns.isEmpty
  | '*' :: ps, ns => (List.tails ns).any (fun tailPart => globMatch ps tailPart)
  | _ :: _, [] => false
  | p :: ps, n :: ns => p = n && globMatch ps ns

/-- Embeds `ExtensionExporter.getBrowserProfiles`
(`src/services/extension-exporter.ts` lines 23-51), with the config table,
the platform and the filesystem(`pathExists`, directory listing for glob,
`isDirectory`) as parameters: unknown browser and missing per-platform
path throw (the JS falsiness of `basePath` also treats an empty template
as missing); a non-existing profile root yields an empty list; otherwise
every glob match of every pattern is filtered to directories and collected in
order. -/
def getBrowserProfilesWith (configs : String → Option BrowserConfig)
    (platform : Platform) (pathExistsF : String → Bool)
    (listDirF : String → List String) (isDirF : String → Bool)
    (browser : String) : Except String (List String) :=
  match configs browser with
  | none => Except.error ("Unsupported browser: " ++ browser)
  | some config =>
      match config.paths platform with
      | none =>
          Except.error ("Browser " ++ browser ++ " is not supported on " ++
            platformName platform)
      | some basePath =>
          if basePath = "" then
            Except.error ("Browser " ++ browser ++ " is not supported on " ++
              platformName platform)
          else if pathExistsF basePath = false then Except.ok []
          else Except.ok (config.profilePatterns.foldl (fun acc pat =>
            acc ++ ((listDirF basePath).filter
                (fun it => globMatch pat.data it.data)).filterMap
              (fun m =>
                let profilePath := pathJoin basePath m
                if isDirF profilePath then some profilePath else none)) [])

/-- The service `getBrowserProfiles` with the shipped config table. -/
def getBrowserProfiles (home : String) (platform : Platform)
    (pathExistsF : String → Bool) (listDirF : String → List String)
    (isDirF : String → Bool) (browser : String) : Except String (List String) :=
  getBrowserProfilesWith (BROWSER_CONFIGS home) platform pathExistsF listDirF
    isDirF browser

/-- A config entry with no path template on any platform, used to witness
the unsupported-platform error path. -/
def noPathConfig : BrowserConfig :=
  { name := "Ghost", paths := fun _ => none, extensionPath := "Extensions",
    profilePatterns := [] }


/-- A minimal `manifest_version: 2` manifest. -/
def sampleManifestV2 : Json :=
  Json.obj [("manifest_version", Json.num 2), ("name", Json.str "Sample"),
    ("version", Json.str "1.0")]

/-- A minimal `manifest_version: 3` manifest. -/
def sampleManifestV3 : Json :=
  Json.obj [("manifest_version", Json.num 3), ("name", Json.str "Sample"),
    ("version", Json.str "2.0")]

/-- A manifest carrying the unsupported `manifest_version: 4`. -/
def sampleManifestV4 : Json :=
  Json.obj [("manifest_version", Json.num 4), ("name", Json.str "Sample"),
    ("version", Json.str "1.0")]

/-- A candidate record whose four own fields are all empty strings. -/
def emptyFieldsRecord : Json :=
  Json.obj [("id", Json.str ""), ("name", Json.str ""), ("version", Json.str ""),
    ("manifest", Json.obj [("manifest_version", Json.num 2), ("name", Json.str ""),
      ("version", Json.str "")]),
    ("folderPath", Json.str "")]

/-- A well-formed discovered record. -/
def sampleRecord : Json :=
  Json.obj [("id", Json.str "abcdefgh"), ("name", Json.str "Sample"),
    ("version", Json.str "1.0"), ("manifest", sampleManifestV2),
    ("folderPath", Json.str "profiles/Default/Extensions/abcdefgh/1.0")]

/-- A parsed manifest that omits the `version` field. -/
def manifestNoVer : Json :=
  Json.obj [("manifest_version", Json.num 2), ("name", Json.str "Foo")]

/-- The record that discovery builds from `manifestNoVer`. -/
def recNoVer : Json :=
  Json.obj [("id", Json.str "abc"), ("name", Json.str "Foo"),
    ("version", Json.str "1.0.0"), ("manifest", manifestNoVer),
    ("folderPath", Json.str "profile/Extensions/abc/1.0")]

/-- A V3-tagged manifest that omits the `version` field. -/
def manifestNoVer3 : Json :=
  Json.obj [("manifest_version", Json.num 3), ("name", Json.str "Bar")]

/-- The record that discovery builds from `manifestNoVer3`. -/
def recNoVer3 : Json :=
  Json.obj [("id", Json.str "xyz"), ("name", Json.str "Bar"),
    ("version", Json.str "1.0.0"), ("manifest", manifestNoVer3),
    ("folderPath", Json.str "d")]

/-- A one-file source filesystem for the export frame property. -/
def fsSample : FsM := fun p =>
  if p = ["profiles", "e1", "1.0", "manifest.json"] then some [109, 97] else none

/-- The record whose payload lives at `profiles/e1/1.0` in `fsSample`. -/
def extSample : ExtensionRecord :=
  { id := "aaaa", name := "Foo", version := "1.0", description := none,
    manifest := Json.null, folderPath := ["profiles", "e1", "1.0"] }

/-! ### Helper lemmas -/

theorem strMkData (s : String) : String.mk s.data = s := by
  cases s
  rfl

theorem mapSelf (f : Char → Char) (l : List Char) (h : ∀ c ∈ l, f c = c) :
    l.map f = l := by
  induction l with
  | nil => rfl
  | cons c cs ih =>
      simp only [List.map_cons, h c (List.mem_cons_self c cs)]
      rw [ih (fun d hd => h d (List.mem_cons_of_mem c hd))]

theorem dropWhileKeep (p : Char → Bool) (l : List Char)
    (h : ∀ c, l.head? = some c → p c = false) : l.dropWhile p = l := by
  cases l with
  | nil => rfl
  | cons c cs => simp [List.dropWhile, h c rfl]

theorem trimCharsKeep (l : List Char)
    (hh : ∀ c, l.head? = some c → isWsChar c = false)
    (hl : ∀ c, l.getLast? = some c → isWsChar c = false) : trimChars l = l := by
  unfold trimChars
  rw [dropWhileKeep _ _ hh]
  rw [dropWhileKeep _ _ (fun c hc => hl c ((List.head?_reverse l) ▸ hc))]
  exact List.reverse_reverse l

theorem cmpKeysSelf (a : List Int) : cmpKeys a a = 0 := by
  induction a with
  | nil => rfl
  | cons x xs ih => simp [cmpKeys, ih]

theorem cmpKeysAntisymm (a : List Int) : ∀ b, cmpKeys a b = -cmpKeys b a := by
  induction a with
  | nil =>
      intro b
      induction b with
      | nil => rfl
      | cons y ys ih =>
          by_cases hy : y = 0
          · simpa [cmpKeys, cmpNil, hy] using ih
          · simp [cmpKeys, cmpNil, hy]
  | cons x xs ih =>
      intro b
      cases b with
      | nil =>
          have h := ih []
          by_cases hx : x = 0
          · simp [cmpKeys, cmpNil, hx, h]
          · simp [cmpKeys, cmpNil, hx]
      | cons y ys =>
          by_cases hxy : y - x = 0
          · have hyx : x - y = 0 := by omega
            simp [cmpKeys, hxy, hyx, ih ys]
          · have hyx : x - y ≠ 0 := by omega
            simp [cmpKeys, hxy, hyx]

theorem cmpKeysStep (a b : List Int) :
    cmpKeys a b =
      if b.headD 0 - a.headD 0 = 0 then cmpKeys a.tail b.tail
      else b.headD 0 - a.headD 0 := by
  match a, b with
  | [], [] => simp [cmpKeys, cmpNil]
  | [], y :: ys =>
      by_cases hy : y = 0
      · simp [cmpKeys, cmpNil, hy]
      · simp [cmpKeys, cmpNil, hy]
  | x :: xs, [] =>
      by_cases hx : x = 0
      · simp [cmpKeys, cmpNil, hx]
      · have hx2 : (0 : Int) - x ≠ 0 := by omega
        simp [cmpKeys, cmpNil, hx, hx2]
  | x :: xs, y :: ys =>
      by_cases hxy : y - x = 0
      · simp [cmpKeys, hxy]
      · simp [cmpKeys, hxy]

theorem cmpKeysTransAux :
    ∀ n (a b c : List Int), a.length + b.length + c.length ≤ n →
      0 ≤ cmpKeys a b → 0 ≤ cmpKeys b c → 0 ≤ cmpKeys a c := by
  intro n
  induction n with
  | zero =>
      intro a b c hlen h1 h2
      cases a <;> cases c <;> simp_all [cmpKeys, cmpNil]
  | succ n ih =>
      intro a b c hlen h1 h2
      by_cases hac : a = [] ∧ c = []
      · obtain ⟨ha, hc⟩ := hac
        subst ha; subst hc
        simp [cmpKeys, cmpNil]
      · rw [cmpKeysStep] at h1 h2 ⊢
        by_cases h01 : b.headD 0 - a.headD 0 = 0
        · rw [if_pos h01] at h1
          by_cases h02 : c.headD 0 - b.headD 0 = 0
          · rw [if_pos h02] at h2
            have hz : c.headD 0 - a.headD 0 = 0 := by omega
            rw [if_pos hz]
            have hta := List.length_tail a
            have htb := List.length_tail b
            have htc := List.length_tail c
            rcases not_and_or.mp hac with hne | hne
            · have : 1 ≤ a.length := List.length_pos.mpr hne
              exact ih a.tail b.tail c.tail (by omega) h1 h2
            · have : 1 ≤ c.length := List.length_pos.mpr hne
              exact ih a.tail b.tail c.tail (by omega) h1 h2
          · rw [if_neg h02] at h2
            have hz : c.headD 0 - a.headD 0 ≠ 0 := by omega
            rw [if_neg hz]
            omega
        · rw [if_neg h01] at h1
          by_cases h02 : c.headD 0 - b.headD 0 = 0
          · have hz : c.headD 0 - a.headD 0 ≠ 0 := by omega
            rw [if_neg hz]
            omega
          · rw [if_neg h02] at h2
            have hz : c.headD 0 - a.headD 0 ≠ 0 := by omega
            rw [if_neg hz]
            omega

theorem versionCompareAntisymm (a b : String) :
    versionCompare a b = -versionCompare b a :=
  cmpKeysAntisymm (verKey a) (verKey b)

theorem versionCompareTrans (a b c : String) (h1 : versionCompare a b ≤ 0)
    (h2 : versionCompare b c ≤ 0) : versionCompare a c ≤ 0 := by
  have h1n : 0 ≤ cmpKeys (verKey b) (verKey a) := by
    have := cmpKeysAntisymm (verKey a) (verKey b)
    unfold versionCompare at h1
    omega
  have h2n : 0 ≤ cmpKeys (verKey c) (verKey b) := by
    have := cmpKeysAntisymm (verKey b) (verKey c)
    unfold versionCompare at h2
    omega
  have h3 := cmpKeysTransAux
    ((verKey c).length + (verKey b).length + (verKey a).length)
    (verKey c) (verKey b) (verKey a) (le_refl _) h2n h1n
  have := cmpKeysAntisymm (verKey a) (verKey c)
  unfold versionCompare
  omega

theorem selectLatestSpec (dirs : List String) (m : String)
    (h : selectLatest dirs = some m) :
    m ∈ dirs ∧ ∀ v ∈ dirs, versionCompare m v ≤ 0 := by
  letI : IsTrans String versionBefore :=
    ⟨fun a b c hab hbc => versionCompareTrans a b c hab hbc⟩
  letI : IsTotal String versionBefore := ⟨by
    intro a b
    have := versionCompareAntisymm a b
    unfold versionBefore
    omega⟩
  unfold selectLatest at h
  cases hs : List.insertionSort versionBefore dirs with
  | nil => rw [hs] at h; cases h
  | cons v rest =>
      rw [hs] at h
      have h2 : (if v = "" then none else some v) = some m := h
      by_cases hv : v = ""
      · rw [if_pos hv] at h2; cases h2
      · rw [if_neg hv] at h2
        have hvm : v = m := by injection h2
        subst hvm
        have hsorted := List.sorted_insertionSort versionBefore dirs
        rw [hs] at hsorted
        have hperm := List.perm_insertionSort versionBefore dirs
        rw [hs] at hperm
        refine ⟨hperm.mem_iff.mp (List.mem_cons_self v rest), ?_⟩
        intro w hw
        have hw2 : w ∈ v :: rest := hperm.mem_iff.mpr hw
        rcases List.mem_cons.mp hw2 with hwv | hwr
        · subst hwv
          exact le_of_eq (cmpKeysSelf (verKey w))
        · exact List.rel_of_sorted_cons hsorted w hwr

/-! ### Claim C1 -/

/-- Claim C1, as stated, is false: the comparator does not treat every
non-numeric segment as 0.  `parseInt("2a")` parses the leading digits, so
the code ranks `"0.2a"` strictly above `"0.1"` and selects it, while the
claimed rule (non-numeric segment counts 0) ranks `"0.1"` strictly above
`"0.2a"`.  A negative comparator value means the first argument sorts
first, i.e. is considered the higher version. -/
theorem C1_counterexample :
    versionCompare "0.2a" "0.1" < 0 ∧ 0 < specVersionCompare "0.2a" "0.1" ∧
      selectLatest ["0.1", "0.2a"] = some "0.2a" :=
  ⟨by decide, by decide, by decide⟩

/-- Claim C1 (amended): the comparator splits on `.` and compares
segments left-to-right where a segment counts as its JavaScript
`parseInt` value (a missing segment, or one without a leading integer,
counts as 0; a segment such as `"2a"` counts as its leading integer 2).
It is a total preorder: antisymmetric, transitive and total; `"1.2"` and
`"1.2.0"` compare equal, `"2"` compares greater than `"1.9.9"` (a
negative result ranks the first argument higher, the sort being
descending), the selected version directory is maximal in that order
among the candidates, and discovery reads `manifest.json` inside the
selected version directory. -/
theorem C1_version_order_amended :
    (∀ a b, versionCompare a b = -versionCompare b a) ∧
    (∀ a b c, versionCompare a b ≤ 0 → versionCompare b c ≤ 0 →
      versionCompare a c ≤ 0) ∧
    (∀ a b : String, versionCompare a b ≤ 0 ∨ versionCompare b a ≤ 0) ∧
    versionCompare "1.2" "1.2.0" = 0 ∧
    versionCompare "2" "1.9.9" < 0 ∧
    (∀ dirs m, selectLatest dirs = some m →
      m ∈ dirs ∧ ∀ v ∈ dirs, versionCompare m v ≤ 0) ∧
    (∀ itemPath dirs m, selectLatest dirs = some m →
      chromiumManifestPath itemPath dirs = some (itemPath ++ [m, "manifest.json"])) := by
  refine ⟨versionCompareAntisymm, versionCompareTrans, ?_, by decide, by decide,
    selectLatestSpec, ?_⟩
  · intro a b
    have := versionCompareAntisymm a b
    omega
  · intro itemPath dirs m h
    unfold chromiumManifestPath
    rw [h]
    rfl

/-- Concrete instance of the C1 transitivity component. -/
theorem C1_version_order_witness : versionCompare "3.0" "1.0" ≤ 0 :=
  C1_version_order_amended.2.1 "3.0" "2.0" "1.0" (by decide) (by decide)

/-! ### Claim C2 -/

/-- Claim C2 is violated by the shipped service: `run` awaits
`exportExtension` in a plain `for` loop and `exportExtension` rethrows,
so when the first of three selected extensions fails (unreadable source
directory) the service loop exports nothing further and surfaces the
error, while the legacy loop (per-item try/catch) still exports the other
two and collects exactly one failure. -/
theorem C2_batch_abort_eval :
    runBatchExports unreadableExport ["extA", "extB", "extC"] =
        ([], some "EACCES: unreadable source directory") ∧
      runBatchExportsLegacy unreadableExport ["extA", "extB", "extC"] =
        (["extB", "extC"], ["EACCES: unreadable source directory"]) :=
  ⟨rfl, rfl⟩

/-! ### Claim C3 helper lemmas -/

theorem stripPfxAppend (a : List String) : ∀ q, stripPfx a (a ++ q) = some q := by
  induction a with
  | nil => intro q; rfl
  | cons x xs ih => intro q; simp [stripPfx, ih]

theorem stripPfxSome (a : List String) :
    ∀ p r, stripPfx a p = some r → p = a ++ r := by
  induction a with
  | nil =>
      intro p r h
      injection h
  | cons x xs ih =>
      intro p r h
      cases p with
      | nil => cases h
      | cons y ys =>
          unfold stripPfx at h
          by_cases hxy : x = y
          · rw [if_pos hxy] at h
            have := ih ys r h
            subst hxy
            rw [List.cons_append, this]
          · rw [if_neg hxy] at h
            cases h

theorem appendEqAppendCases (a : List String) :
    ∀ (b x y : List String), a ++ x = b ++ y →
      (∃ t, b = a ++ t) ∨ (∃ t, a = b ++ t) := by
  induction a with
  | nil =>
      intro b x y _
      exact Or.inl ⟨b, rfl⟩
  | cons c cs ih =>
      intro b x y h
      cases b with
      | nil => exact Or.inr ⟨c :: cs, rfl⟩
      | cons d ds =>
          injection h with h1 h2
          rcases ih ds x y h2 with ⟨t, ht⟩ | ⟨t, ht⟩
          · exact Or.inl ⟨t, by rw [← h1, ht]; rfl⟩
          · exact Or.inr ⟨t, by rw [h1, ht]; rfl⟩

theorem stripPfxDisjoint (src tempDir : List String)
    (h1 : stripPfx src tempDir = none) (h2 : stripPfx tempDir src = none) :
    ∀ q, stripPfx tempDir (src ++ q) = none := by
  intro q
  cases hs : stripPfx tempDir (src ++ q) with
  | none => rfl
  | some r =>
      have heq : src ++ q = tempDir ++ r := stripPfxSome _ _ _ hs
      rcases appendEqAppendCases src tempDir q r heq with ⟨t, ht⟩ | ⟨t, ht⟩
      · rw [ht, stripPfxAppend] at h1
        cases h1
      · rw [ht, stripPfxAppend] at h2
        cases h2

/-- If two filesystems agree on the source subtree and both have an empty
working area, copying the source into the working area produces the same
working-area contents. -/
theorem copyPayloadCongr (fsA fsB : FsM) (src tempDir : List String)
    (hsrc : ∀ q, fsA (src ++ q) = fsB (src ++ q))
    (hA : ∀ q, fsA (tempDir ++ q) = none)
    (hB : ∀ q, fsB (tempDir ++ q) = none) :
    ∀ q, copyDirFs fsA src tempDir (tempDir ++ q) =
      copyDirFs fsB src tempDir (tempDir ++ q) := by
  intro q
  unfold copyDirFs
  rw [stripPfxAppend]
  dsimp only
  rw [hsrc q]
  cases hc : fsB (src ++ q) with
  | some c => rfl
  | none => rw [hA q, hB q]

/-! ### Claim C3 -/

/-- Claim C3: exporting a record never touches the source subtree
(`folderPath` and everything beneath it is byte-for-byte unchanged), the
archived entry map is exactly the source subtree, and exporting the same
record a second time hands the archiver an identical entry map.  The
hypotheses say that the export working area `exports/<browser>/<id>` and
the archive path `exports/<browser>/<name>-<version>.zip` do not lie
inside the source subtree (nor the source inside the working area) and
that the working area starts empty, which is the operating situation of
the tool (sources live in a browser profile, outputs under the current
working directory). -/
theorem C3_export_frame
    (encode : FsM → Bytes) (fs : FsM) (ext : ExtensionRecord) (browser : String)
    (h1 : stripPfx ext.folderPath ["exports", browser, ext.id] = none)
    (h2 : stripPfx ["exports", browser, ext.id] ext.folderPath = none)
    (h3 : stripPfx ext.folderPath
      ["exports", browser, ext.name ++ "-" ++ ext.version ++ ".zip"] = none)
    (hclean : ∀ q, fs (["exports", browser, ext.id] ++ q) = none) :
    (∀ q, (exportExtension encode fs ext browser).1 (ext.folderPath ++ q) =
        fs (ext.folderPath ++ q)) ∧
      (exportExtension encode fs ext browser).2 = subtreeOf fs ext.folderPath ∧
      (exportExtension encode (exportExtension encode fs ext browser).1 ext browser).2 =
        (exportExtension encode fs ext browser).2 := by
  have hT : ∀ q, stripPfx ["exports", browser, ext.id] (ext.folderPath ++ q) = none :=
    stripPfxDisjoint _ _ h1 h2
  have hZ : ∀ q, ext.folderPath ++ q ≠
      ["exports", browser, ext.name ++ "-" ++ ext.version ++ ".zip"] := by
    intro q he
    rw [← he, stripPfxAppend] at h3
    cases h3
  have hfs1src : ∀ q,
      copyDirFs fs ext.folderPath ["exports", browser, ext.id]
        (ext.folderPath ++ q) = fs (ext.folderPath ++ q) := by
    intro q
    unfold copyDirFs
    rw [hT q]
  have hpayload : ∀ q,
      copyDirFs fs ext.folderPath ["exports", browser, ext.id]
        (["exports", browser, ext.id] ++ q) = fs (ext.folderPath ++ q) := by
    intro q
    unfold copyDirFs
    rw [stripPfxAppend]
    dsimp only
    cases hc : fs (ext.folderPath ++ q) with
    | some c => rfl
    | none => exact hclean q
  have hfs3src : ∀ q,
      (exportExtension encode fs ext browser).1 (ext.folderPath ++ q) =
        fs (ext.folderPath ++ q) := by
    intro q
    show rmTreeFs _ ["exports", browser, ext.id] (ext.folderPath ++ q) =
      fs (ext.folderPath ++ q)
    unfold rmTreeFs
    rw [hT q]
    show setFileFs _ _ _ (ext.folderPath ++ q) = fs (ext.folderPath ++ q)
    unfold setFileFs
    rw [if_neg (hZ q)]
    exact hfs1src q
  have hfs3temp : ∀ q,
      (exportExtension encode fs ext browser).1
        (["exports", browser, ext.id] ++ q) = none := by
    intro q
    show rmTreeFs _ ["exports", browser, ext.id]
      (["exports", browser, ext.id] ++ q) = none
    unfold rmTreeFs
    rw [stripPfxAppend]
  have hsnd : ∀ g : FsM, (exportExtension encode g ext browser).2 =
      subtreeOf (copyDirFs g ext.folderPath ["exports", browser, ext.id])
        ["exports", browser, ext.id] := fun _ => rfl
  have hp1 : (exportExtension encode fs ext browser).2 =
      subtreeOf fs ext.folderPath := by
    rw [hsnd fs]
    funext q
    exact hpayload q
  refine ⟨hfs3src, hp1, ?_⟩
  rw [hsnd, hsnd]
  funext q
  exact copyPayloadCongr _ fs ext.folderPath ["exports", browser, ext.id]
    hfs3src hfs3temp hclean q

/-! ### Claims C4, C5, C10 -/

/-- Claim C4, as stated, is false: the shipped resolver performs no locale
lookup at all, so a `__MSG_<key>__` manifest name is returned as the raw
token itself, not a locale message and not the
`Unknown Extension (<id>)` fallback. -/
theorem C4_counterexample :
    getExtensionName "__MSG_appName__" "abcdefgh" = "__MSG_appName__" ∧
      "__MSG_appName__" ≠ "Unknown Extension (abcdefgh)" ∧
      List.isPrefixOf "__MSG_".data (getExtensionName "__MSG_appName__" "abcdefgh").data = true :=
  ⟨rfl, by decide, by decide⟩

/-- Claim C4 (amended): for every `__MSG_<key>__` manifest name the
resolver of the shipped service treats it like any other name: the
filesystem-unsafe characters of `<key>` are replaced by underscores and
the surrounding `__MSG_` / `__` marks survive, so the returned display
name is still the raw token (the leading underscore also means the trim
step and the empty-name fallback never fire for such names). -/
theorem C4_msg_token_amended (key extId : String) :
    getExtensionName ("__MSG_" ++ key ++ "__") extId =
      "__MSG_" ++ replaceUnsafe key ++ "__" := by
  have hdata : ("__MSG_" ++ key ++ "__").data =
      '_' :: '_' :: 'M' :: 'S' :: 'G' :: '_' :: (key.data ++ ['_', '_']) := by
    rw [String.data_append, String.data_append]
    show (['_', '_', 'M', 'S', 'G', '_'] ++ key.data) ++ ['_', '_'] = _
    rw [List.append_assoc]
    rfl
  have hmap : (("__MSG_" ++ key ++ "__").data).map sanitizeChar =
      '_' :: '_' :: 'M' :: 'S' :: 'G' :: '_' ::
        (key.data.map sanitizeChar ++ ['_', '_']) := by
    rw [hdata]
    simp only [List.map_cons, List.map_append]
    rfl
  have hlast : ('_' :: '_' :: 'M' :: 'S' :: 'G' :: '_' ::
      (key.data.map sanitizeChar ++ ['_', '_'])).getLast? = some '_' := by
    show (['_', '_', 'M', 'S', 'G', '_'] ++
      (key.data.map sanitizeChar ++ ['_', '_'])).getLast? = some '_'
    rw [List.getLast?_append_of_ne_nil _ (fun h =>
      absurd (List.append_eq_nil.mp h).2 (by decide))]
    rw [List.getLast?_append_of_ne_nil _ (by decide : (['_', '_'] : List Char) ≠ [])]
    rfl
  have htrim : trimChars ('_' :: '_' :: 'M' :: 'S' :: 'G' :: '_' ::
      (key.data.map sanitizeChar ++ ['_', '_'])) =
      '_' :: '_' :: 'M' :: 'S' :: 'G' :: '_' ::
        (key.data.map sanitizeChar ++ ['_', '_']) := by
    apply trimCharsKeep
    · intro c hc
      injection hc with hc
      rw [← hc]
      rfl
    · intro c hc
      rw [hlast] at hc
      injection hc with hc
      rw [← hc]
      rfl
  have hne : String.mk ('_' :: '_' :: 'M' :: 'S' :: 'G' :: '_' ::
      (key.data.map sanitizeChar ++ ['_', '_'])) ≠ "" := by
    intro h
    have h9 := congrArg String.data h
    simp at h9
  simp only [getExtensionName, replaceUnsafe, jsTrim]
  rw [hmap, htrim]
  rw [if_neg hne]
  have hrhs : ("__MSG_" ++ String.mk (key.data.map sanitizeChar) ++ "__").data =
      '_' :: '_' :: 'M' :: 'S' :: 'G' :: '_' ::
        (key.data.map sanitizeChar ++ ['_', '_']) := by
    rw [String.data_append, String.data_append]
    show (['_', '_', 'M', 'S', 'G', '_'] ++ key.data.map sanitizeChar) ++ ['_', '_'] = _
    rw [List.append_assoc]
    rfl
  calc String.mk ('_' :: '_' :: 'M' :: 'S' :: 'G' :: '_' ::
        (key.data.map sanitizeChar ++ ['_', '_']))
      = String.mk ("__MSG_" ++ String.mk (key.data.map sanitizeChar) ++ "__").data := by
        rw [hrhs]
    _ = "__MSG_" ++ String.mk (key.data.map sanitizeChar) ++ "__" := strMkData _

/-- Claim C5, as stated, is false: a name that does not match the
`__MSG_<key>__` pattern is still sanitized, so `"a:b"` is returned as
`"a_b"`, not unchanged. -/
theorem C5_counterexample :
    getExtensionName "a:b" "someid" = "a_b" ∧ "a_b" ≠ "a:b" :=
  ⟨rfl, by decide⟩

/-- Claim C5 (amended): a manifest name is returned with the characters
`< > : " / \ | ? *` replaced by underscores and surrounding whitespace
trimmed, with the extension id as fallback when the result is empty; it
is returned unchanged exactly on the plain names: non-empty, none of
those characters, and no leading or trailing whitespace. -/
theorem C5_plain_name_amended (name extId : String)
    (hne : name ≠ "")
    (hnosafe : name.data.all (fun c => !isUnsafeChar c) = true)
    (hhead : name.data.head?.all (fun c => !isWsChar c) = true)
    (hfin : name.data.getLast?.all (fun c => !isWsChar c) = true) :
    getExtensionName name extId = name := by
  have hmap : name.data.map sanitizeChar = name.data := by
    apply mapSelf
    intro c hc
    have h9 := List.all_eq_true.mp hnosafe c hc
    have h8 : isUnsafeChar c = false := by
      cases hu : isUnsafeChar c
      · rfl
      · rw [hu] at h9; cases h9
    simp [sanitizeChar, h8]
  have htrim : trimChars name.data = name.data := by
    apply trimCharsKeep
    · intro c hc
      rw [hc] at hhead
      cases hw : isWsChar c
      · rfl
      · simp [Option.all, hw] at hhead
    · intro c hc
      rw [hc] at hfin
      cases hw : isWsChar c
      · rfl
      · simp [Option.all, hw] at hfin
  simp only [getExtensionName, replaceUnsafe, jsTrim]
  rw [hmap, htrim, strMkData]
  rw [if_neg hne]

/-- Concrete instance of the C5 unchanged-name component. -/
theorem C5_plain_name_witness : getExtensionName "My Extension1" "x" = "My Extension1" :=
  C5_plain_name_amended "My Extension1" "x" (by decide) (by decide) (by decide) (by decide)

/-- Claim C10: when the manifest name sanitizes and trims to the empty
string the resolver falls back to the extension id, and with a non-empty
id (directory entry names are never empty) the resolved name is never
empty. -/
theorem C10_name_fallback :
    (∀ name extId : String, jsTrim (replaceUnsafe name) = "" →
      getExtensionName name extId = extId) ∧
    (∀ name extId : String, extId ≠ "" → getExtensionName name extId ≠ "") := by
  constructor
  · intro name extId h
    simp only [getExtensionName]
    rw [if_pos h]
  · intro name extId hid
    simp only [getExtensionName]
    by_cases h : jsTrim (replaceUnsafe name) = ""
    · rw [if_pos h]; exact hid
    · rw [if_neg h]; exact h

/-- Concrete instance of the C10 fallback. -/
theorem C10_name_fallback_witness : getExtensionName "  " "ext1" = "ext1" :=
  C10_name_fallback.1 "  " "ext1" rfl

/-- Concrete instance of the C3 frame property on `fsSample`. -/
theorem C3_export_frame_witness :
    (∀ q, (exportExtension (fun _ => []) fsSample extSample "chrome").1
        (extSample.folderPath ++ q) = fsSample (extSample.folderPath ++ q)) ∧
      (exportExtension (fun _ => []) fsSample extSample "chrome").2 =
        subtreeOf fsSample extSample.folderPath ∧
      (exportExtension (fun _ => [])
          (exportExtension (fun _ => []) fsSample extSample "chrome").1
          extSample "chrome").2 =
        (exportExtension (fun _ => []) fsSample extSample "chrome").2 :=
  C3_export_frame (fun _ => []) fsSample extSample "chrome" rfl rfl rfl
    (fun q => if_neg (fun h => by
      injection h with h1 _
      exact absurd h1 (by decide)))

/-! ### zod helper lemmas -/

theorem andLeft {a b : Bool} (h : (a && b) = true) : a = true := by
  cases a
  · rw [Bool.false_and] at h
    cases h
  · rfl

theorem andRight {a b : Bool} (h : (a && b) = true) : b = true := by
  cases a
  · rw [Bool.false_and] at h
    cases h
  · rwa [Bool.true_and] at h

theorem reqFSome (fields : List (String × Json)) (name : String) (p : Json → Bool)
    (h : reqF fields name p = true) :
    ∃ v, lookupF fields name = some v ∧ p v = true := by
  unfold reqF at h
  cases hv : lookupF fields name with
  | none => rw [hv] at h; cases h
  | some v => rw [hv] at h; exact ⟨v, rfl, h⟩

theorem zStringStr : ∀ v : Json, zString v = true → ∃ s, v = Json.str s
  | Json.str s, _ => ⟨s, rfl⟩
  | Json.null, h => nomatch h
  | Json.bool _, h => nomatch h
  | Json.num _, h => nomatch h
  | Json.arr _, h => nomatch h
  | Json.obj _, h => nomatch h

/-- A validated V2 manifest carries the literal `manifest_version: 2`. -/
theorem validV2MV (j : Json) (h : validManifestV2 j = true) :
    jsonLookup j "manifest_version" = some (Json.num 2) := by
  cases j with
  | obj fields =>
      have h1 : reqF fields "manifest_version" (mvIs 2) = true :=
        andLeft (andLeft (andLeft (andLeft (andLeft (andLeft (andLeft (andLeft
          (andLeft (andLeft h)))))))))
      obtain ⟨v, hv, hp⟩ := reqFSome _ _ _ h1
      cases v with
      | num n =>
          have hn : n = 2 := of_decide_eq_true hp
          subst hn
          exact hv
      | null => nomatch hp
      | bool b => nomatch hp
      | str s => nomatch hp
      | arr xs => nomatch hp
      | obj fs2 => nomatch hp
  | null => nomatch h
  | bool b => nomatch h
  | num n => nomatch h
  | str s => nomatch h
  | arr xs => nomatch h

/-- A validated V3 manifest carries the literal `manifest_version: 3`. -/
theorem validV3MV (j : Json) (h : validManifestV3 j = true) :
    jsonLookup j "manifest_version" = some (Json.num 3) := by
  cases j with
  | obj fields =>
      have h1 : reqF fields "manifest_version" (mvIs 3) = true :=
        andLeft (andLeft (andLeft (andLeft (andLeft (andLeft (andLeft (andLeft
          (andLeft (andLeft h)))))))))
      obtain ⟨v, hv, hp⟩ := reqFSome _ _ _ h1
      cases v with
      | num n =>
          have hn : n = 3 := of_decide_eq_true hp
          subst hn
          exact hv
      | null => nomatch hp
      | bool b => nomatch hp
      | str s => nomatch hp
      | arr xs => nomatch hp
      | obj fs2 => nomatch hp
  | null => nomatch h
  | bool b => nomatch h
  | num n => nomatch h
  | str s => nomatch h
  | arr xs => nomatch h

/-- A validated V2 manifest carries a `version` field. -/
theorem validV2Version (j : Json) (h : validManifestV2 j = true) :
    ∃ v, jsonLookup j "version" = some v := by
  cases j with
  | obj fields =>
      have h1 : reqF fields "version" zString = true :=
        andRight (andLeft (andLeft (andLeft (andLeft (andLeft (andLeft (andLeft
          (andLeft h))))))))
      obtain ⟨v, hv, _⟩ := reqFSome _ _ _ h1
      exact ⟨v, hv⟩
  | null => nomatch h
  | bool b => nomatch h
  | num n => nomatch h
  | str s => nomatch h
  | arr xs => nomatch h

/-- A validated V3 manifest carries a `version` field. -/
theorem validV3Version (j : Json) (h : validManifestV3 j = true) :
    ∃ v, jsonLookup j "version" = some v := by
  cases j with
  | obj fields =>
      have h1 : reqF fields "version" zString = true :=
        andRight (andLeft (andLeft (andLeft (andLeft (andLeft (andLeft (andLeft
          (andLeft h))))))))
      obtain ⟨v, hv, _⟩ := reqFSome _ _ _ h1
      exact ⟨v, hv⟩
  | null => nomatch h
  | bool b => nomatch h
  | num n => nomatch h
  | str s => nomatch h
  | arr xs => nomatch h

/-! ### Claim C6 -/

/-- Claim C6: a manifest conforming to the V2 branch is accepted and
tagged `v2`, one conforming to the V3 branch is accepted and tagged `v3`,
and a manifest whose `manifest_version` is anything other than the number
2 or the number 3 (for instance 4, or a missing field, or a non-number)
is rejected by the union. -/
theorem C6_manifest_variants :
    (∀ j, validManifestV2 j = true → parseManifestVariant j = some MVariant.v2) ∧
    (∀ j, validManifestV3 j = true → parseManifestVariant j = some MVariant.v3) ∧
    (∀ j, (∀ v, jsonLookup j "manifest_version" = some v →
        v ≠ Json.num 2 ∧ v ≠ Json.num 3) → parseManifestVariant j = none) := by
  refine ⟨?_, ?_, ?_⟩
  · intro j h
    unfold parseManifestVariant
    rw [if_pos h]
  · intro j h
    have h2 : validManifestV2 j = false := by
      cases hv : validManifestV2 j
      · rfl
      · have e2 := validV2MV j hv
        have e3 := validV3MV j h
        rw [e2] at e3
        injection e3 with e3
        injection e3 with e4
        exact absurd e4 (by decide)
    unfold parseManifestVariant
    rw [h2]
    rw [if_neg (by intro hc; cases hc)]
    rw [if_pos h]
  · intro j hmv
    have h2 : validManifestV2 j = false := by
      cases hv : validManifestV2 j
      · rfl
      · exact absurd rfl (hmv _ (validV2MV j hv)).1
    have h3 : validManifestV3 j = false := by
      cases hv : validManifestV3 j
      · rfl
      · exact absurd rfl (hmv _ (validV3MV j hv)).2
    unfold parseManifestVariant
    rw [h2, h3]
    rw [if_neg (by intro hc; cases hc), if_neg (by intro hc; cases hc)]

/-- Concrete V2 / V3 / V4 manifests run through the union. -/
theorem C6_manifest_variants_witness :
    parseManifestVariant sampleManifestV2 = some MVariant.v2 ∧
      parseManifestVariant sampleManifestV3 = some MVariant.v3 ∧
      parseManifestVariant sampleManifestV4 = none :=
  ⟨C6_manifest_variants.1 sampleManifestV2 rfl,
   C6_manifest_variants.2.1 sampleManifestV3 rfl,
   C6_manifest_variants.2.2 sampleManifestV4 (fun v hv => by
     have hv2 : jsonLookup sampleManifestV4 "manifest_version" = some (Json.num 4) := rfl
     rw [hv2] at hv
     injection hv with hv
     refine ⟨?_, ?_⟩
     · rw [← hv]
       intro hc
       injection hc with hc
       exact absurd hc (by decide)
     · rw [← hv]
       intro hc
       injection hc with hc
       exact absurd hc (by decide))⟩

/-! ### Claim C7 -/

/-- Claim C7, as stated, is false: `z.string()` accepts the empty string,
so a record whose id, name, version and folderPath are all `""` passes
`ExtensionInfoSchema` and is returned unchanged rather than rejected. -/
theorem C7_counterexample :
    parseExtensionInfo emptyFieldsRecord = some emptyFieldsRecord := rfl

/-- Claim C7 (amended): validation succeeds only when id, name, version
and folderPath are present as strings — empty strings included — and on
success the record is returned unchanged (the zod parse result is
discarded and the original object handed back). -/
theorem C7_record_validation_amended :
    (∀ j, validExtensionInfo j = true →
      (∃ s, jsonLookup j "id" = some (Json.str s)) ∧
      (∃ s, jsonLookup j "name" = some (Json.str s)) ∧
      (∃ s, jsonLookup j "version" = some (Json.str s)) ∧
      (∃ s, jsonLookup j "folderPath" = some (Json.str s))) ∧
    (∀ j r, parseExtensionInfo j = some r → r = j) := by
  constructor
  · intro j h
    cases j with
    | obj fields =>
        have tid : reqF fields "id" zString = true :=
          andLeft (andLeft (andLeft (andLeft (andLeft h))))
        have tname : reqF fields "name" zString = true :=
          andRight (andLeft (andLeft (andLeft (andLeft h))))
        have tver : reqF fields "version" zString = true :=
          andRight (andLeft (andLeft (andLeft h)))
        have tfold : reqF fields "folderPath" zString = true := andRight h
        obtain ⟨v1, hv1, hp1⟩ := reqFSome _ _ _ tid
        obtain ⟨s1, rfl⟩ := zStringStr v1 hp1
        obtain ⟨v2, hv2, hp2⟩ := reqFSome _ _ _ tname
        obtain ⟨s2, rfl⟩ := zStringStr v2 hp2
        obtain ⟨v3, hv3, hp3⟩ := reqFSome _ _ _ tver
        obtain ⟨s3, rfl⟩ := zStringStr v3 hp3
        obtain ⟨v4, hv4, hp4⟩ := reqFSome _ _ _ tfold
        obtain ⟨s4, rfl⟩ := zStringStr v4 hp4
        exact ⟨⟨s1, hv1⟩, ⟨s2, hv2⟩, ⟨s3, hv3⟩, ⟨s4, hv4⟩⟩
    | null => nomatch h
    | bool b => nomatch h
    | num n => nomatch h
    | str s => nomatch h
    | arr xs => nomatch h
  · intro j r h
    unfold parseExtensionInfo at h
    by_cases hv : validExtensionInfo j = true
    · rw [if_pos hv] at h
      injection h with h
      exact h.symm
    · rw [if_neg hv] at h
      cases h

/-- The amended C7 statement run on a well-formed record. -/
theorem C7_record_validation_witness :
    (∃ s, jsonLookup sampleRecord "id" = some (Json.str s)) ∧
    (∃ s, jsonLookup sampleRecord "name" = some (Json.str s)) ∧
    (∃ s, jsonLookup sampleRecord "version" = some (Json.str s)) ∧
    (∃ s, jsonLookup sampleRecord "folderPath" = some (Json.str s)) :=
  C7_record_validation_amended.1 sampleRecord rfl

/-! ### Claim C8 -/

/-- Claim C8, as stated, is false: the record built for a manifest with
no `version` field does default to `"1.0.0"`, but both manifest variants
of the schema require a `version` string, so validation drops the record
and it is never included in the discovery results. -/
theorem C8_counterexample :
    buildExtensionInfo manifestNoVer "abc" "profile/Extensions/abc/1.0" =
        some recNoVer ∧
      jsonLookup recNoVer "version" = some (Json.str "1.0.0") ∧
      parseExtensionInfo recNoVer = none :=
  ⟨rfl, rfl, rfl⟩

/-- Claim C8 (amended): for a parsed manifest that omits `version`,
discovery builds a candidate record whose version field is the string
`"1.0.0"`, but the subsequent schema validation rejects that record
(the manifest sub-schema requires a `version` string in both variants),
so the extension is dropped rather than included. -/
theorem C8_default_version_amended (manifest : Json) (item dir : String) (rec : Json)
    (hnov : jsonLookup manifest "version" = none)
    (hbuild : buildExtensionInfo manifest item dir = some rec) :
    jsonLookup rec "version" = some (Json.str "1.0.0") ∧
      parseExtensionInfo rec = none := by
  have hpm : parseManifestVariant manifest = none := by
    have h2 : validManifestV2 manifest = false := by
      cases hv : validManifestV2 manifest
      · rfl
      · obtain ⟨v, hvv⟩ := validV2Version manifest hv
        rw [hnov] at hvv
        cases hvv
    have h3 : validManifestV3 manifest = false := by
      cases hv : validManifestV3 manifest
      · rfl
      · obtain ⟨v, hvv⟩ := validV3Version manifest hv
        rw [hnov] at hvv
        cases hvv
    unfold parseManifestVariant
    rw [h2, h3]
    rw [if_neg (by intro hc; cases hc), if_neg (by intro hc; cases hc)]
  unfold buildExtensionInfo at hbuild
  cases hname : jsonLookup manifest "name" with
  | none =>
      rw [hname] at hbuild
      nomatch hbuild
  | some nv =>
      rw [hname] at hbuild
      cases nv with
      | str n =>
          rw [hnov] at hbuild
          cases hdesc : jsonLookup manifest "description" with
          | none =>
              rw [hdesc] at hbuild
              injection hbuild with hb
              refine ⟨?_, ?_⟩
              · rw [← hb]
                simp [jsonLookup, lookupF, List.find?, List.cons_append,
                  List.nil_append]
              · rw [← hb]
                simp [parseExtensionInfo, validExtensionInfo, reqF, optF, lookupF,
                  List.find?, List.cons_append, List.nil_append, hpm]
          | some d =>
              rw [hdesc] at hbuild
              injection hbuild with hb
              refine ⟨?_, ?_⟩
              · rw [← hb]
                simp [jsonLookup, lookupF, List.find?, List.cons_append,
                  List.nil_append]
              · rw [← hb]
                simp [parseExtensionInfo, validExtensionInfo, reqF, optF, lookupF,
                  List.find?, List.cons_append, List.nil_append, hpm]
      | null => nomatch hbuild
      | bool b => nomatch hbuild
      | num k => nomatch hbuild
      | arr xs => nomatch hbuild
      | obj fs2 => nomatch hbuild

/-- The amended C8 statement run on a concrete V3 manifest without a
version field. -/
theorem C8_default_version_witness :
    jsonLookup recNoVer3 "version" = some (Json.str "1.0.0") ∧
      parseExtensionInfo recNoVer3 = none :=
  C8_default_version_amended manifestNoVer3 "xyz" "d" recNoVer3 rfl rfl

/-! ### Claim C9 -/

/-- Claim C9: resolving profiles for a browser identifier outside the
config table fails with the unsupported-browser error, and for a
configured identifier whose entry has no path template for the current
platform it fails with the unsupported-platform error instead of
returning a result. -/
theorem C9_profile_errors :
    (∀ (configs : String → Option BrowserConfig) (platform : Platform)
        (pe : String → Bool) (ld : String → List String) (idf : String → Bool)
        (browser : String), configs browser = none →
        getBrowserProfilesWith configs platform pe ld idf browser =
          Except.error ("Unsupported browser: " ++ browser)) ∧
    (∀ (configs : String → Option BrowserConfig) (platform : Platform)
        (pe : String → Bool) (ld : String → List String) (idf : String → Bool)
        (browser : String) (config : BrowserConfig),
        configs browser = some config → config.paths platform = none →
        getBrowserProfilesWith configs platform pe ld idf browser =
          Except.error ("Browser " ++ browser ++ " is not supported on " ++
            platformName platform)) := by
  constructor
  · intro configs platform pe ld idf browser h
    unfold getBrowserProfilesWith
    rw [h]
  · intro configs platform pe ld idf browser config h1 h2
    unfold getBrowserProfilesWith
    rw [h1]
    dsimp only
    rw [h2]

/-- The two C9 error paths at concrete inputs: an identifier outside the
shipped table, and a config entry with no path template on linux. -/
theorem C9_profile_errors_witness :
    getBrowserProfilesWith (BROWSER_CONFIGS "/home/u") Platform.linux
        (fun _ => false) (fun _ => []) (fun _ => false) "netscape" =
      Except.error ("Unsupported browser: " ++ "netscape") ∧
    getBrowserProfilesWith (fun b => if b = "ghost" then some noPathConfig else none)
        Platform.linux (fun _ => false) (fun _ => []) (fun _ => false) "ghost" =
      Except.error ("Browser " ++ "ghost" ++ " is not supported on " ++
        platformName Platform.linux) :=
  ⟨C9_profile_errors.1 (BROWSER_CONFIGS "/home/u") Platform.linux
      (fun _ => false) (fun _ => []) (fun _ => false) "netscape" rfl,
   C9_profile_errors.2 (fun b => if b = "ghost" then some noPathConfig else none)
      Platform.linux (fun _ => false) (fun _ => []) (fun _ => false) "ghost"
      noPathConfig rfl rfl⟩
